import Mathlib

/-!
Verification of the `bedrock-leveldb` safe wrapper over the LevelDB C API.

This development shallowly embeds the wrapper's logic (src/db.rs, src/util.rs,
src/iterator.rs, src/write_batch.rs, src/options.rs).  The wrapped native
engine is an external collaborator whose behaviour is not part of the
repository's sources; where a property depends on engine behaviour, the engine
primitives are modelled from the repository's specification (spec.md §4.3, §4.4,
§6) and are marked `Modelled from the spec:` in their doc comments.

Byte strings are modelled as `List Nat`, foreign nullable pointers as `Option`,
engine-allocated buffers as identifiable `Buffer` values, and the freeing of a
foreign buffer as membership of the buffer's id in the list of freed ids that a
wrapper function returns alongside its result.
-/

namespace BedrockLeveldb

/-- Byte strings (keys, values, paths, messages) as lists of byte values. -/
abbrev Bytes := List Nat

/-! ## UTF-8 lossy conversion (Rust `Path::to_string_lossy` / `String::from_utf8_lossy`)

`DB::open` converts the caller's path with `to_string_lossy()` before any
validation or foreign call, and `error_message` converts the engine's message
buffer with `to_string_lossy()`.  The conversion below follows the documented
behaviour of Rust's `String::from_utf8_lossy` (substitution of maximal subparts
of ill-formed sequences by U+FFFD, whose UTF-8 encoding is `EF BF BD`), keyed
by the same lead-byte ranges as Rust's `core::str` UTF-8 validation.  It is
written with an explicit fuel argument (the input length bounds the recursion)
so that it evaluates by kernel reduction. -/

/-- UTF-8 encoding of U+FFFD, the replacement character. -/
def utf8Rep : Bytes := [0xEF, 0xBF, 0xBD]

/-- Whether a byte is a UTF-8 continuation byte (`0x80..=0xBF`). -/
def isCont (b : Nat) : Bool := decide (0x80 ≤ b ∧ b ≤ 0xBF)

/-- Admissible first continuation byte of a three-byte sequence with lead `b`
(`0xE0` demands `0xA0..=0xBF`, `0xED` demands `0x80..=0x9F`). -/
def cont3 (b c : Nat) : Bool :=
  if b = 0xE0 then decide (0xA0 ≤ c ∧ c ≤ 0xBF)
  else if b = 0xED then decide (0x80 ≤ c ∧ c ≤ 0x9F)
  else isCont c

/-- Admissible first continuation byte of a four-byte sequence with lead `b`
(`0xF0` demands `0x90..=0xBF`, `0xF4` demands `0x80..=0x8F`). -/
def cont4 (b c : Nat) : Bool :=
  if b = 0xF0 then decide (0x90 ≤ c ∧ c ≤ 0xBF)
  else if b = 0xF4 then decide (0x80 ≤ c ∧ c ≤ 0x8F)
  else isCont c

/-- Fuel-indexed body of the lossy UTF-8 conversion.  Valid sequences are
copied verbatim; each maximal subpart of an ill-formed sequence (and each
incomplete sequence at the end of input) is replaced by one `utf8Rep`. -/
def utf8LossyAux : Nat → Bytes → Bytes
  | 0, _ => []
  | _ + 1, [] => []
  | fuel + 1, b :: rest =>
    if b ≤ 0x7F then b :: utf8LossyAux fuel rest
    else if 0xC2 ≤ b ∧ b ≤ 0xDF then
      match rest with
      | [] => utf8Rep
      | c :: rest2 =>
        if isCont c then b :: c :: utf8LossyAux fuel rest2
        else utf8Rep ++ utf8LossyAux fuel (c :: rest2)
    else if 0xE0 ≤ b ∧ b ≤ 0xEF then
      match rest with
      | [] => utf8Rep
      | c :: rest2 =>
        if cont3 b c then
          match rest2 with
          | [] => utf8Rep
          | d :: rest3 =>
            if isCont d then b :: c :: d :: utf8LossyAux fuel rest3
            else utf8Rep ++ utf8LossyAux fuel (d :: rest3)
        else utf8Rep ++ utf8LossyAux fuel (c :: rest2)
    else if 0xF0 ≤ b ∧ b ≤ 0xF4 then
      match rest with
      | [] => utf8Rep
      | c :: rest2 =>
        if cont4 b c then
          match rest2 with
          | [] => utf8Rep
          | d :: rest3 =>
            if isCont d then
              match rest3 with
              | [] => utf8Rep
              | e :: rest4 =>
                if isCont e then b :: c :: d :: e :: utf8LossyAux fuel rest4
                else utf8Rep ++ utf8LossyAux fuel (e :: rest4)
            else utf8Rep ++ utf8LossyAux fuel (d :: rest3)
        else utf8Rep ++ utf8LossyAux fuel (c :: rest2)
    else utf8Rep ++ utf8LossyAux fuel rest

/-- Lossy UTF-8 conversion of a byte string, total on all inputs. -/
def utf8Lossy (l : Bytes) : Bytes := utf8LossyAux l.length l

/-! ## Error/string utilities (src/util.rs) -/

/-- Message of the fixed wrapper error `"invalid path: contains null byte"`,
as its ASCII bytes. -/
def invalidPathMsg : Bytes :=
  [105, 110, 118, 97, 108, 105, 100, 32, 112, 97, 116, 104, 58, 32, 99, 111,
   110, 116, 97, 105, 110, 115, 32, 110, 117, 108, 108, 32, 98, 121, 116, 101]

/-- Message of the fixed wrapper error `"failed to open database"`, as its
ASCII bytes. -/
def failedOpenMsg : Bytes :=
  [102, 97, 105, 108, 101, 100, 32, 116, 111, 32, 111, 112, 101, 110, 32, 100,
   97, 116, 97, 98, 97, 115, 101]

/-- Message of the fixed wrapper error `"unknown error"`, as its ASCII bytes. -/
def unknownErrorMsg : Bytes := [117, 110, 107, 110, 111, 119, 110, 32, 101, 114, 114, 111, 114]

/-- An engine-allocated buffer crossing the FFI boundary: an identity (the
pointer) together with the pointed-to bytes. -/
structure Buffer where
  id : Nat
  data : Bytes
deriving DecidableEq

/-- Embedding of `util::to_cstring`: `CString::new` succeeds exactly when the
string's bytes contain no null byte. -/
def to_cstring (s : Bytes) : Option Bytes :=
  if 0 ∈ s then none else some s

/-- Embedding of `util::error_message`: a null error pointer yields
`"unknown error"` with nothing freed; a non-null pointer is read as a
C string (bytes up to the terminating null), converted lossily, and the
buffer is freed (its id is returned as freed) before the message is returned. -/
def error_message : Option Buffer → Bytes × List Nat
  | none => (unknownErrorMsg, [])
  | some b => (utf8Lossy (b.data.takeWhile (fun x => x ≠ 0)), [b.id])

/-! ## DB::open (src/db.rs lines 79-94) -/

/-- Outcome of the foreign `leveldb_open` call: a nullable database handle and
a nullable error buffer. -/
structure ForeignOpenResult where
  handle : Option Nat
  err : Option Bytes
deriving DecidableEq

/-- Branching of `DB::open` on the foreign call's outcome: a non-null error
signal is translated (`error_message` semantics inlined on the message bytes);
otherwise a null handle gives the fixed `failed to open database` error;
otherwise the returned `DB` owns the non-null handle. -/
def DB.openPost (r : ForeignOpenResult) : Except Bytes Nat :=
  match r.err with
  | some e => .error (utf8Lossy (e.takeWhile (fun x => x ≠ 0)))
  | none =>
    match r.handle with
    | none => .error failedOpenMsg
    | some h => .ok h

/-- Embedding of `DB::open`.  The foreign open call is a function `fopen` from
the C path string actually passed to the outcome it produces.  The wrapper
lossily converts the caller's path bytes, validates the result for null bytes
before any foreign call, and otherwise branches on the foreign outcome via
`DB.openPost`, exactly as the source does. -/
def DB.open (path : Bytes) (fopen : Bytes → ForeignOpenResult) : Except Bytes Nat :=
  match to_cstring (utf8Lossy path) with
  | none => .error invalidPathMsg
  | some cpath => DB.openPost (fopen cpath)

/-! ## Engine data model (Modelled from the spec)

The logical content of an open database is an association list from keys to
values (most recent binding first), together with the set of engine-held
snapshots (spec.md §3, §6).  None of this state lives in the repository's own
sources — the wrapper holds only opaque handles — so the engine-side semantics
of `leveldb_put`, `leveldb_delete`, `leveldb_get`, `leveldb_write` and
`leveldb_create_snapshot` used below are modelled from the spec's contracts. -/

/-- Association list holding the logical key-value content of a database. -/
abbrev DataMap := List (Bytes × Bytes)

/-- Modelled from the spec: engine point lookup — the value of the most recent
binding of the key, if any. -/
def dbLookup (m : DataMap) (k : Bytes) : Option Bytes :=
  (m.find? (fun e => decide (e.1 = k))).map (fun e => e.2)

/-- Modelled from the spec: engine insert-or-overwrite of one binding. -/
def dbInsert (m : DataMap) (k v : Bytes) : DataMap := (k, v) :: m

/-- Modelled from the spec: engine removal of every binding of a key (removing
an absent key is a no-op). -/
def dbErase (m : DataMap) (k : Bytes) : DataMap :=
  m.filter (fun e => decide (e.1 ≠ k))

/-- Modelled from the spec: engine-side state of one open database — its
logical content, the ids of the snapshots the engine currently holds, and the
next fresh snapshot id. -/
structure Engine where
  data : DataMap
  snaps : List Nat
  snapCtr : Nat
deriving DecidableEq

/-- Every held snapshot id is below the fresh-id counter; this holds for every
engine state reachable through the wrapper. -/
def Engine.snapBound (e : Engine) : Prop := ∀ s ∈ e.snaps, s < e.snapCtr

instance (e : Engine) : Decidable e.snapBound :=
  inferInstanceAs (Decidable (∀ s ∈ e.snaps, s < e.snapCtr))

/-- Modelled from the spec: `leveldb_create_snapshot` hands out a fresh
engine-held snapshot of the database at the moment of the call. -/
def engineCreateSnapshot (e : Engine) : Nat × Engine :=
  (e.snapCtr, { e with snaps := e.snaps ++ [e.snapCtr], snapCtr := e.snapCtr + 1 })

/-! ## DB::get / DB::put / DB::delete (src/db.rs lines 132-261) -/

/-- Outcome of the foreign `leveldb_get` call: a nullable value buffer and a
nullable error buffer. -/
structure ForeignGetResult where
  val : Option Buffer
  err : Option Buffer
deriving DecidableEq

/-- Embedding of `DB::get` given the foreign call's outcome.  A non-null error
signal is translated via `error_message` (which frees it) and returned as
`Err`; a null value with no error is `Ok None`; a non-null value is copied
into a wrapper-owned vector, the foreign buffer is freed (`leveldb_free`), and
the copy is returned.  The second component lists the ids of the foreign
buffers freed before returning. -/
def DB.get (f : ForeignGetResult) : Except Bytes (Option Bytes) × List Nat :=
  match f.err with
  | some e =>
    let me := error_message (some e)
    (.error me.1, me.2)
  | none =>
    match f.val with
    | none => (.ok none, [])
    | some v => (.ok (some v.data), [v.id])

/-- Modelled from the spec: outcome the engine produces for a non-failing
`leveldb_get` — absence signalled by a null value pointer, presence by a
buffer holding the stored value. -/
def engineGet (e : Engine) (k : Bytes) : ForeignGetResult :=
  { val := (dbLookup e.data k).map (fun v => ⟨0, v⟩), err := none }

/-- `DB::get` against a live engine state on the engine's non-failing read
path. -/
def DB.getAt (e : Engine) (k : Bytes) : Except Bytes (Option Bytes) × List Nat :=
  DB.get (engineGet e k)

/-- Embedding of `DB::put`.  The wrapper passes the key and value bytes to
`leveldb_put` unchanged; `ferr` is the error signal the foreign call leaves in
its out-parameter (`none` on a successful engine write).  On success the
engine state holds the new binding (engine write semantics modelled from the
spec); on failure the message is translated and the error buffer freed. -/
def DB.put (e : Engine) (k v : Bytes) (ferr : Option Buffer) :
    Except Bytes Unit × Engine × List Nat :=
  match ferr with
  | some b =>
    let me := error_message (some b)
    (.error me.1, e, me.2)
  | none => (.ok (), { e with data := dbInsert e.data k v }, [])

/-- Embedding of `DB::delete`, in the same style as `DB.put`. -/
def DB.delete (e : Engine) (k : Bytes) (ferr : Option Buffer) :
    Except Bytes Unit × Engine × List Nat :=
  match ferr with
  | some b =>
    let me := error_message (some b)
    (.error me.1, e, me.2)
  | none => (.ok (), { e with data := dbErase e.data k }, [])

/-! ## DB::compact_range / DB::flush (src/db.rs lines 288-327) -/

/-- Argument marshalling the wrapper performs for one compaction bound: `Some
s` becomes the pointer to `s` with its length, `None` becomes the null pointer
with length 0. -/
def marshalBound : Option Bytes → Option Bytes × Nat
  | some s => (some s, s.length)
  | none => (none, 0)

/-- Behaviour of the foreign `leveldb_compact_range` call, taken as an
arbitrary transformation of engine state by the marshalled bounds (the
engine's compaction internals are out of scope; the call has no error
channel). -/
abbrev CompactPrim := Engine → Option Bytes × Nat → Option Bytes × Nat → Engine

/-- Embedding of `DB::compact_range`: marshal both bounds and invoke the
foreign compaction, whatever its behaviour `ec` is.  The return type has no
error component: the call has no failure mode at this layer. -/
def DB.compact_range (ec : CompactPrim) (e : Engine) (start limit : Option Bytes) : Engine :=
  ec e (marshalBound start) (marshalBound limit)

/-- Embedding of `DB::flush`: the source delegates to
`compact_range(None, None)`. -/
def DB.flush (ec : CompactPrim) (e : Engine) : Engine :=
  DB.compact_range ec e none none

/-! ## WriteBatch (src/write_batch.rs) -/

/-- One buffered batch operation. -/
inductive BatchOp
  | putOp (k v : Bytes)
  | delOp (k : Bytes)
deriving DecidableEq

/-- Modelled from the spec: effect of one batch operation on the logical
database content. -/
def applyOp (m : DataMap) : BatchOp → DataMap
  | .putOp k v => dbInsert m k v
  | .delOp k => dbErase m k

/-- Modelled from the spec: effect of a whole buffered operation list, applied
in order as one unit. -/
def applyOps (ops : List BatchOp) (m : DataMap) : DataMap := ops.foldl applyOp m

/-- Embedding of `WriteBatch::put`: append a put to the buffered list (no
engine I/O). -/
def WriteBatch.put (b : List BatchOp) (k v : Bytes) : List BatchOp := b ++ [.putOp k v]

/-- Embedding of `WriteBatch::delete`: append a delete to the buffered list
(no engine I/O). -/
def WriteBatch.delete (b : List BatchOp) (k : Bytes) : List BatchOp := b ++ [.delOp k]

/-- Embedding of `WriteBatch::clear`: discard the buffered list. -/
def WriteBatch.clear (_b : List BatchOp) : List BatchOp := []

/-- Embedding of `WriteBatch::write`.  The wrapper passes the batch handle to
`leveldb_write` and inspects the error out-parameter `ferr`.  Engine semantics
of `leveldb_write` are modelled from the spec: on success all buffered
operations are applied to the database content as one unit; on failure the
database is unchanged.  In both cases the foreign call does not consume the
batch, and the wrapper neither clears nor rebuilds it, so the buffered list is
returned unchanged.  The last component lists the freed buffer ids. -/
def WriteBatch.write (b : List BatchOp) (e : Engine) (ferr : Option Buffer) :
    Except Bytes Unit × Engine × List BatchOp × List Nat :=
  match ferr with
  | some buf =>
    let me := error_message (some buf)
    (.error me.1, e, b, me.2)
  | none => (.ok (), { e with data := applyOps b e.data }, b, [])

/-! ## Iterator (src/iterator.rs)

The foreign iterator handle is modelled as the key-ordered entry sequence the
iterator materialised at creation together with a cursor: `some i` when
positioned on entry `i`, `none` when invalid (past either end, or freshly
created before any positioning call).  The primitives `leveldb_iter_*` are
part of the engine; their semantics below are modelled from the spec (§4.3,
§6): seeks position the cursor, steps move it one entry and make it invalid
past either boundary, and stepping while invalid is a defined no-op. -/

/-- Modelled from the spec: state of one foreign iterator handle. -/
structure IterState where
  entries : List (Bytes × Bytes)
  pos : Option Nat
deriving DecidableEq

/-- Well-formedness of an iterator state: the cursor, when set, denotes an
existing entry.  Every state reachable through the primitives is well formed. -/
def IterState.wfB (s : IterState) : Bool :=
  match s.pos with
  | some i => decide (i < s.entries.length)
  | none => true

/-- Byte-lexicographic order used by the default comparator: `bytesLe a b`
holds when `a ≤ b`. -/
def bytesLe : Bytes → Bytes → Bool
  | [], _ => true
  | _ :: _, [] => false
  | a :: as, b :: bs => if a < b then true else if b < a then false else bytesLe as bs

/-- Modelled from the spec: `leveldb_iter_valid`. -/
def iterValidPrim (s : IterState) : Bool :=
  match s.pos with
  | some i => decide (i < s.entries.length)
  | none => false

/-- Modelled from the spec: `leveldb_iter_seek_to_first`. -/
def iterSeekFirstPrim (s : IterState) : IterState :=
  { s with pos := if s.entries.length = 0 then none else some 0 }

/-- Modelled from the spec: `leveldb_iter_seek_to_last`. -/
def iterSeekLastPrim (s : IterState) : IterState :=
  { s with pos := if s.entries.length = 0 then none else some (s.entries.length - 1) }

/-- Modelled from the spec: `leveldb_iter_seek` positions the cursor at the
first entry whose key is ≥ the target, and makes the iterator invalid when no
such entry exists. -/
def iterSeekPrim (s : IterState) (k : Bytes) : IterState :=
  { s with pos := s.entries.findIdx? (fun e => bytesLe k e.1) }

/-- Modelled from the spec: `leveldb_iter_next` — one step forward when valid,
invalid past the last entry, a defined no-op when already invalid. -/
def iterNextPrim (s : IterState) : IterState :=
  match s.pos with
  | none => s
  | some i => { s with pos := if i + 1 < s.entries.length then some (i + 1) else none }

/-- Modelled from the spec: `leveldb_iter_prev` — one step backward when
valid, invalid before the first entry, a defined no-op when already invalid. -/
def iterPrevPrim (s : IterState) : IterState :=
  match s.pos with
  | none => s
  | some i => { s with pos := if i = 0 then none else some (i - 1) }

/-- Modelled from the spec: `leveldb_iter_key` — the current entry's key (only
meaningful while valid; the wrapper guards every use with a validity check). -/
def iterKeyPrim (s : IterState) : Bytes :=
  match s.pos with
  | some i => (s.entries.getD i ([], [])).1
  | none => []

/-- Modelled from the spec: `leveldb_iter_value`, analogous to `iterKeyPrim`. -/
def iterValuePrim (s : IterState) : Bytes :=
  match s.pos with
  | some i => (s.entries.getD i ([], [])).2
  | none => []

/-- The entry the cursor currently denotes, if any. -/
def IterState.currentEntry (s : IterState) : Option (Bytes × Bytes) :=
  s.pos.bind (fun i => s.entries.get? i)

/-- Embedding of `DBIterator::new` via `DB::iter`: a fresh iterator holds the
entry sequence as of its creation and starts positioned before the first
entry, hence invalid. -/
def DBIterator.new (entries : List (Bytes × Bytes)) : IterState :=
  { entries := entries, pos := none }

/-- Embedding of `DBIterator::valid`. -/
def DBIterator.valid (s : IterState) : Bool := iterValidPrim s

/-- Embedding of `DBIterator::seek_to_first`. -/
def DBIterator.seek_to_first (s : IterState) : IterState := iterSeekFirstPrim s

/-- Embedding of `DBIterator::seek_to_last`. -/
def DBIterator.seek_to_last (s : IterState) : IterState := iterSeekLastPrim s

/-- Embedding of `DBIterator::seek`. -/
def DBIterator.seek (s : IterState) (k : Bytes) : IterState := iterSeekPrim s k

/-- Embedding of `DBIterator::next_native`: an unconditional call of the
foreign step-forward primitive. -/
def DBIterator.next_native (s : IterState) : IterState := iterNextPrim s

/-- Embedding of `DBIterator::prev_native`: an unconditional call of the
foreign step-backward primitive. -/
def DBIterator.prev_native (s : IterState) : IterState := iterPrevPrim s

/-- Embedding of `DBIterator::key`: a copy of the current key when valid,
`None` otherwise. -/
def DBIterator.key (s : IterState) : Option Bytes :=
  if DBIterator.valid s then some (iterKeyPrim s) else none

/-- Embedding of `DBIterator::value`: a copy of the current value when valid,
`None` otherwise. -/
def DBIterator.value (s : IterState) : Option Bytes :=
  if DBIterator.valid s then some (iterValuePrim s) else none

/-- Embedding of `Iterator::next` for `DBIterator`: `None` when invalid;
otherwise read the current key and value, step forward once, and return the
pair read.  The second component is the iterator state after the call. -/
def DBIterator.next (s : IterState) : Option (Bytes × Bytes) × IterState :=
  if DBIterator.valid s = false then (none, s)
  else
    match DBIterator.key s with
    | none => (none, s)
    | some k =>
      match DBIterator.value s with
      | none => (none, s)
      | some v => (some (k, v), DBIterator.next_native s)

/-- Embedding of `DBIterator::prev`: `None` when invalid; otherwise step
backward first, then read the key and value at the new position, returning
`None` when the step made the iterator invalid.  The second component is the
iterator state after the call. -/
def DBIterator.prev (s : IterState) : Option (Bytes × Bytes) × IterState :=
  if DBIterator.valid s = false then (none, s)
  else
    let s2 := DBIterator.prev_native s
    match DBIterator.key s2 with
    | none => (none, s2)
    | some k =>
      match DBIterator.value s2 with
      | none => (none, s2)
      | some v => (some (k, v), s2)

/-! ## ReadOptions and snapshots (src/options.rs) -/

/-- Wrapper-visible state of one `ReadOptions` handle: the snapshot pointer it
carries, if any (the other fields play no role in the claims verified here). -/
structure ReadOptionsM where
  snap : Option Nat
deriving DecidableEq

/-- Embedding of `impl AsSnapshot for DB`: yielding a snapshot pointer from a
live database calls `leveldb_create_snapshot`, taking a fresh engine snapshot
at that moment. -/
def DB.asSnapshotPtr (e : Engine) : Nat × Engine := engineCreateSnapshot e

/-- Embedding of `impl AsSnapshot for *const leveldb_snapshot_t`: an
already-held snapshot pointer is yielded as-is, with no engine effect. -/
def rawAsSnapshotPtr (p : Nat) (e : Engine) : Nat × Engine := (p, e)

/-- Embedding of `ReadOptions::snapshot` applied to a live database: obtain
the pointer via `DB.asSnapshotPtr` and store it in the options
(`leveldb_readoptions_set_snapshot`). -/
def ReadOptions.snapshotOfDB (_ro : ReadOptionsM) (e : Engine) : ReadOptionsM × Engine :=
  let pe := DB.asSnapshotPtr e
  ({ snap := some pe.1 }, pe.2)

/-- Embedding of `ReadOptions::snapshot` applied to an existing snapshot
pointer. -/
def ReadOptions.snapshotOfRaw (_ro : ReadOptionsM) (p : Nat) (e : Engine) :
    ReadOptionsM × Engine :=
  let pe := rawAsSnapshotPtr p e
  ({ snap := some pe.1 }, pe.2)

/-- Embedding of `Drop for ReadOptions`: `leveldb_readoptions_destroy` frees
the options handle only; it performs no engine snapshot operation, so the
engine state is untouched. -/
def ReadOptions.dropRO (_ro : ReadOptionsM) (e : Engine) : Engine := e

/-! ## Helper lemmas -/

/-- A continuation byte is at least `0x80`. -/
theorem isCont_pos {c : Nat} (h : isCont c = true) : 0x80 ≤ c := by
  simp only [isCont, decide_eq_true_eq] at h
  omega

/-- An admissible first continuation byte of a three-byte sequence is at least
`0x80`. -/
theorem cont3_pos {b c : Nat} (h : cont3 b c = true) : 0x80 ≤ c := by
  unfold cont3 at h
  split at h
  · simp only [decide_eq_true_eq] at h
    omega
  · split at h
    · simp only [decide_eq_true_eq] at h
      omega
    · exact isCont_pos h

/-- An admissible first continuation byte of a four-byte sequence is at least
`0x80`. -/
theorem cont4_pos {b c : Nat} (h : cont4 b c = true) : 0x80 ≤ c := by
  unfold cont4 at h
  split at h
  · simp only [decide_eq_true_eq] at h
    omega
  · split at h
    · simp only [decide_eq_true_eq] at h
      omega
    · exact isCont_pos h

/-- Lossy UTF-8 conversion preserves the presence and absence of null bytes:
a null byte of the input is a valid one-byte sequence and is copied verbatim,
and neither copied multi-byte sequences nor the replacement encoding contain a
null byte. -/
theorem utf8LossyAux_zero_mem (fuel : Nat) :
    ∀ l : Bytes, l.length ≤ fuel → (0 ∈ utf8LossyAux fuel l ↔ 0 ∈ l) := by
  induction fuel with
  | zero =>
    intro l hl
    have h0 : l = [] := List.eq_nil_of_length_eq_zero (Nat.le_zero.mp hl)
    subst h0
    simp [utf8LossyAux]
  | succ n ih =>
    intro l hl
    cases l with
    | nil => simp [utf8LossyAux]
    | cons b rest =>
      have hr : rest.length ≤ n := by
        simp only [List.length_cons] at hl
        omega
      by_cases h1 : b ≤ 0x7F
      · simp [utf8LossyAux, h1, ih rest hr]
      · have hb0 : ¬ (0 = b) := by omega
        by_cases h2 : 0xC2 ≤ b ∧ b ≤ 0xDF
        · cases rest with
          | nil => simp [utf8LossyAux, h1, h2, utf8Rep, hb0]
          | cons c rest2 =>
            have hr2 : rest2.length ≤ n := by
              simp only [List.length_cons] at hr
              omega
            by_cases hc : isCont c = true
            · simp [utf8LossyAux, h1, h2, hc, ih rest2 hr2]
            · simp [utf8LossyAux, h1, h2, hc, utf8Rep, ih _ hr, hb0]
        · by_cases h3 : 0xE0 ≤ b ∧ b ≤ 0xEF
          · cases rest with
            | nil => simp [utf8LossyAux, h1, h2, h3, utf8Rep, hb0]
            | cons c rest2 =>
              have hr2 : rest2.length ≤ n := by
                simp only [List.length_cons] at hr
                omega
              by_cases hc : cont3 b c = true
              · have hc0 : ¬ (0 = c) := by have := cont3_pos hc; omega
                cases rest2 with
                | nil => simp [utf8LossyAux, h1, h2, h3, hc, utf8Rep, hb0, hc0]
                | cons d rest3 =>
                  have hr3 : rest3.length ≤ n := by
                    simp only [List.length_cons] at hr2
                    omega
                  by_cases hd : isCont d = true
                  · simp [utf8LossyAux, h1, h2, h3, hc, hd, ih rest3 hr3]
                  · simp [utf8LossyAux, h1, h2, h3, hc, hd, utf8Rep,
                      ih _ hr2, hb0, hc0]
              · simp [utf8LossyAux, h1, h2, h3, hc, utf8Rep, ih _ hr, hb0]
          · by_cases h4 : 0xF0 ≤ b ∧ b ≤ 0xF4
            · cases rest with
              | nil => simp [utf8LossyAux, h1, h2, h3, h4, utf8Rep, hb0]
              | cons c rest2 =>
                have hr2 : rest2.length ≤ n := by
                  simp only [List.length_cons] at hr
                  omega
                by_cases hc : cont4 b c = true
                · have hc0 : ¬ (0 = c) := by have := cont4_pos hc; omega
                  cases rest2 with
                  | nil => simp [utf8LossyAux, h1, h2, h3, h4, hc, utf8Rep, hb0, hc0]
                  | cons d rest3 =>
                    have hr3 : rest3.length ≤ n := by
                      simp only [List.length_cons] at hr2
                      omega
                    by_cases hd : isCont d = true
                    · have hd0 : ¬ (0 = d) := by have := isCont_pos hd; omega
                      cases rest3 with
                      | nil =>
                        simp [utf8LossyAux, h1, h2, h3, h4, hc, hd, utf8Rep, hb0, hc0, hd0]
                      | cons e rest4 =>
                        have hr4 : rest4.length ≤ n := by
                          simp only [List.length_cons] at hr3
                          omega
                        by_cases he : isCont e = true
                        · simp [utf8LossyAux, h1, h2, h3, h4, hc, hd, he, ih rest4 hr4]
                        · simp [utf8LossyAux, h1, h2, h3, h4, hc, hd, he, utf8Rep,
                            ih _ hr3, hb0, hc0, hd0]
                    · simp [utf8LossyAux, h1, h2, h3, h4, hc, hd, utf8Rep,
                        ih _ hr2, hb0, hc0]
                · simp [utf8LossyAux, h1, h2, h3, h4, hc, utf8Rep, ih _ hr, hb0]
            · simp [utf8LossyAux, h1, h2, h3, h4, utf8Rep, ih rest hr, hb0]

/-- Null-byte membership transfers across `utf8Lossy`. -/
theorem utf8Lossy_zero_mem (l : Bytes) : 0 ∈ utf8Lossy l ↔ 0 ∈ l :=
  utf8LossyAux_zero_mem l.length l le_rfl

/-- Validity of an iterator unfolds to an in-range cursor. -/
theorem valid_iff (s : IterState) :
    DBIterator.valid s = true ↔ ∃ i, s.pos = some i ∧ i < s.entries.length := by
  cases hp : s.pos with
  | none => simp [DBIterator.valid, iterValidPrim, hp]
  | some i => simp [DBIterator.valid, iterValidPrim, hp]

/-- A valid iterator denotes an entry, whose projections the key and value
primitives read. -/
theorem currentEntry_of_valid {s : IterState} (h : DBIterator.valid s = true) :
    s.currentEntry = some (iterKeyPrim s, iterValuePrim s) := by
  obtain ⟨i, hp, hi⟩ := (valid_iff s).mp h
  simp [IterState.currentEntry, hp, iterKeyPrim, iterValuePrim,
    List.get?_eq_getElem?, List.getElem?_eq_getElem, hi,
    List.getD_eq_getElem?_getD]

/-! ## Claim C1 -/

/-- Concrete iterator for claim C1: a single entry with the cursor on it. -/
def c1Iter : IterState := { entries := [([1], [2])], pos := some 0 }

/-- C1, counterexample: on a single-entry database with the cursor on that
entry, the iterator is valid and positioned at the entry `([1], [2])`, yet
`DBIterator::prev` returns `None` — not `Some` of the entry the iterator was
positioned at before the call, as the claim states for the backward variant. -/
theorem c1_counterexample :
    DBIterator.valid c1Iter = true ∧
    c1Iter.currentEntry = some ([1], [2]) ∧
    (DBIterator.prev c1Iter).1 = none := by
  decide

/-- C1 (amended): if the iterator is invalid before the call, both
`DBIterator::next` and `DBIterator::prev` return `None` and leave the state
unchanged.  If it is valid, `next` returns `Some` of the entry the iterator
was positioned at before the call and steps the cursor one position forward;
`prev`, by contrast, first steps the cursor one position backward and returns
the entry at the new position — `Some` of it when the new position is valid,
`None` when the step moved past the first entry. -/
theorem c1_next_prev (s : IterState) :
    (DBIterator.valid s = false →
       DBIterator.next s = (none, s) ∧ DBIterator.prev s = (none, s)) ∧
    (DBIterator.valid s = true →
       DBIterator.next s = (s.currentEntry, DBIterator.next_native s) ∧
       DBIterator.prev s =
         ((DBIterator.prev_native s).currentEntry, DBIterator.prev_native s)) := by
  constructor
  · intro h
    constructor
    · simp [DBIterator.next, h]
    · simp [DBIterator.prev, h]
  · intro h
    have hce := currentEntry_of_valid h
    constructor
    · simp [DBIterator.next, h, DBIterator.key, DBIterator.value, hce]
    · obtain ⟨i, hp, hi⟩ := (valid_iff s).mp h
      by_cases h0 : i = 0
      · have hval2 : DBIterator.valid (DBIterator.prev_native s) = false := by
          simp [DBIterator.prev_native, iterPrevPrim, hp, h0, DBIterator.valid,
            iterValidPrim]
        have hce2 : (DBIterator.prev_native s).currentEntry = none := by
          simp [DBIterator.prev_native, iterPrevPrim, hp, h0, IterState.currentEntry]
        simp [DBIterator.prev, h, DBIterator.key, hval2, hce2]
      · have hval2 : DBIterator.valid (DBIterator.prev_native s) = true := by
          simp only [DBIterator.prev_native, iterPrevPrim, hp]
          simp [h0, DBIterator.valid, iterValidPrim]
          omega
        have hce2 := currentEntry_of_valid hval2
        simp [DBIterator.prev, h, DBIterator.key, DBIterator.value, hval2, hce2]

/-- C1, witness: the amended statement evaluated on concrete iterators — an
invalid iterator yields `None` from `next`; a valid iterator on the second of
two entries yields that entry from `next` and the first entry from `prev`. -/
theorem c1_witness :
    DBIterator.next { entries := [([1], [2])], pos := none } =
      (none, { entries := [([1], [2])], pos := none }) ∧
    DBIterator.next { entries := [([1], [2]), ([3], [4])], pos := some 1 } =
      (some ([3], [4]), { entries := [([1], [2]), ([3], [4])], pos := none }) ∧
    DBIterator.prev { entries := [([1], [2]), ([3], [4])], pos := some 1 } =
      (some ([1], [2]), { entries := [([1], [2]), ([3], [4])], pos := some 0 }) := by
  refine ⟨((c1_next_prev _).1 (by decide)).1,
    Eq.trans ((c1_next_prev _).2 (by decide)).1 (by decide),
    Eq.trans ((c1_next_prev _).2 (by decide)).2 (by decide)⟩

/-! ## Claim C2 -/

/-- C2: calling the low-level stepping operations on a well-formed invalid
iterator — in particular a freshly created one, and any iterator over an empty
database — is a defined no-op (the functions are total, so no fault), and on an
empty database every seek and step operation leaves the iterator reporting
invalid. -/
theorem c2_step_invalid_noop_empty (s : IterState) :
    (s.wfB = true → DBIterator.valid s = false →
       DBIterator.next_native s = s ∧ DBIterator.prev_native s = s) ∧
    (∀ entries, DBIterator.valid (DBIterator.new entries) = false ∧
       (DBIterator.new entries).wfB = true) ∧
    (s.entries = [] →
       DBIterator.valid s = false ∧
       DBIterator.valid (DBIterator.seek_to_first s) = false ∧
       DBIterator.valid (DBIterator.seek_to_last s) = false ∧
       (∀ k, DBIterator.valid (DBIterator.seek s k) = false) ∧
       DBIterator.valid (DBIterator.next_native s) = false ∧
       DBIterator.valid (DBIterator.prev_native s) = false) := by
  refine ⟨?_, ?_, ?_⟩
  · intro hwf hinv
    cases hp : s.pos with
    | none =>
      constructor <;>
        simp [DBIterator.next_native, DBIterator.prev_native, iterNextPrim,
          iterPrevPrim, hp]
    | some i =>
      exfalso
      simp only [IterState.wfB, hp, decide_eq_true_eq] at hwf
      simp only [DBIterator.valid, iterValidPrim, hp, decide_eq_false_iff_not] at hinv
      omega
  · intro entries
    constructor <;> simp [DBIterator.new, DBIterator.valid, iterValidPrim, IterState.wfB]
  · intro he
    have hlen : s.entries.length = 0 := by simp [he]
    refine ⟨?_, ?_, ?_, ?_, ?_, ?_⟩
    · cases hp : s.pos <;> simp [DBIterator.valid, iterValidPrim, hp, hlen]
    · simp [DBIterator.seek_to_first, iterSeekFirstPrim, DBIterator.valid,
        iterValidPrim, hlen]
    · simp [DBIterator.seek_to_last, iterSeekLastPrim, DBIterator.valid,
        iterValidPrim, hlen]
    · intro k
      simp [DBIterator.seek, iterSeekPrim, DBIterator.valid, iterValidPrim, he]
    · cases hp : s.pos with
      | none => simp [DBIterator.next_native, iterNextPrim, DBIterator.valid,
          iterValidPrim, hp, hlen]
      | some i => simp [DBIterator.next_native, iterNextPrim, DBIterator.valid,
          iterValidPrim, hp, hlen]
    · cases hp : s.pos with
      | none => simp [DBIterator.prev_native, iterPrevPrim, DBIterator.valid,
          iterValidPrim, hp, hlen]
      | some i =>
        by_cases h0 : i = 0 <;>
          simp [DBIterator.prev_native, iterPrevPrim, DBIterator.valid,
            iterValidPrim, hp, hlen, h0]

/-- C2, witness: the no-op and always-invalid statements evaluated on a fresh
iterator over a one-entry database and on iterators over the empty database. -/
theorem c2_witness :
    DBIterator.next_native (DBIterator.new [([1], [2])]) = DBIterator.new [([1], [2])] ∧
    DBIterator.prev_native (DBIterator.new [([1], [2])]) = DBIterator.new [([1], [2])] ∧
    DBIterator.valid (DBIterator.new [([1], [2])]) = false ∧
    DBIterator.valid (DBIterator.seek { entries := [], pos := none } [5]) = false ∧
    DBIterator.valid (DBIterator.seek_to_first { entries := [], pos := none }) = false := by
  obtain ⟨h1, h2, -⟩ := c2_step_invalid_noop_empty (DBIterator.new [([1], [2])])
  obtain ⟨-, -, h3e⟩ := c2_step_invalid_noop_empty ({ entries := [], pos := none } : IterState)
  have hnoop := h1 (by decide) (by decide)
  exact ⟨hnoop.1, hnoop.2, (h2 [([1], [2])]).1, (h3e rfl).2.2.2.1 [5], (h3e rfl).2.1⟩

/-! ## Claim C3 -/

/-- C3: `DB::open` fails with the fixed invalid-path error, independently of
the foreign call's behaviour (i.e. by validation before any foreign call),
exactly when the converted path string contains a null byte; otherwise, when
the foreign call signals an error the translated foreign message is returned,
when it returns a null handle with no error the fixed
`failed to open database` error is returned, and when it returns a non-null
handle the call succeeds with the returned `DB` owning that handle. -/
theorem c3_open (path : Bytes) (fopen : Bytes → ForeignOpenResult) :
    (0 ∈ utf8Lossy path →
       DB.open path fopen = .error invalidPathMsg ∧
       ∀ g, DB.open path g = DB.open path fopen) ∧
    ((∀ g, DB.open path g = .error invalidPathMsg) ↔ 0 ∈ utf8Lossy path) ∧
    (0 ∉ utf8Lossy path →
       (∀ e, (fopen (utf8Lossy path)).err = some e →
          DB.open path fopen = .error (utf8Lossy (e.takeWhile (fun x => x ≠ 0)))) ∧
       ((fopen (utf8Lossy path)).err = none → (fopen (utf8Lossy path)).handle = none →
          DB.open path fopen = .error failedOpenMsg) ∧
       (∀ h, (fopen (utf8Lossy path)).err = none →
          (fopen (utf8Lossy path)).handle = some h →
          DB.open path fopen = .ok h)) := by
  by_cases hmem : 0 ∈ utf8Lossy path
  · refine ⟨fun _ => ⟨?_, fun g => ?_⟩, ⟨fun _ => hmem, fun _ g => ?_⟩,
      fun hnot => absurd hmem hnot⟩ <;>
      simp [DB.open, to_cstring, hmem]
  · have hpost : ∀ g : Bytes → ForeignOpenResult,
        DB.open path g = DB.openPost (g (utf8Lossy path)) := by
      intro g
      simp [DB.open, to_cstring, hmem]
    refine ⟨fun hm => absurd hm hmem, ⟨?_, fun hm => absurd hm hmem⟩, fun _ => ⟨?_, ?_, ?_⟩⟩
    · intro hall
      exfalso
      have hbad := hall (fun _ => { handle := some 0, err := none })
      rw [hpost] at hbad
      simp [DB.openPost] at hbad
    · intro e he
      simp [hpost fopen, DB.openPost, he]
    · intro he hh
      simp [hpost fopen, DB.openPost, he, hh]
    · intro h he hh
      simp [hpost fopen, DB.openPost, he, hh]

/-- C3, witness: the open cases evaluated concretely — a path containing a
null byte fails with the invalid-path error whatever the foreign call would
report; a clean path propagates the foreign error message, the null-handle
fallback message, or the returned handle. -/
theorem c3_witness :
    DB.open [65, 0] (fun _ => { handle := some 9, err := none }) = .error invalidPathMsg ∧
    DB.open [65] (fun _ => { handle := none, err := some [88, 0] }) = .error [88] ∧
    DB.open [65] (fun _ => { handle := none, err := none }) = .error failedOpenMsg ∧
    DB.open [65] (fun _ => { handle := some 9, err := none }) = .ok 9 := by
  refine ⟨((c3_open [65, 0] _).1 (by decide)).1,
    Eq.trans (((c3_open [65] _).2.2 (by decide)).1 [88, 0] rfl)
      (congrArg Except.error (by decide)),
    ((c3_open [65] _).2.2 (by decide)).2.1 rfl rfl,
    ((c3_open [65] _).2.2 (by decide)).2.2 9 rfl rfl⟩

/-! ## Claim C4 -/

/-- C4: `DB::get` returns `Ok None` exactly when the foreign call yields a
null value pointer and no error signal; with a non-null value and no error it
returns a wrapper-owned copy of the value buffer's bytes and frees the foreign
buffer before returning; with a non-null error signal it returns the
translated message as `Err` and the error buffer is freed before returning;
and `error_message` frees every non-null error signal it translates. -/
theorem c4_get (f : ForeignGetResult) :
    ((DB.get f).1 = .ok none ↔ f.err = none ∧ f.val = none) ∧
    (∀ v, f.err = none → f.val = some v →
       (DB.get f).1 = .ok (some v.data) ∧ v.id ∈ (DB.get f).2) ∧
    (∀ e, f.err = some e →
       (DB.get f).1 = .error (error_message (some e)).1 ∧ e.id ∈ (DB.get f).2) ∧
    (∀ b : Buffer, (error_message (some b)).2 = [b.id]) := by
  obtain ⟨val, err⟩ := f
  cases err <;> cases val <;>
    simp [DB.get, error_message]

/-- C4, witness: the three outcomes of `DB::get` evaluated concretely — an
absent key, a present key whose buffer (id 3) is freed, and an engine error
whose buffer (id 7) is translated up to its null terminator and freed. -/
theorem c4_witness :
    (DB.get { val := none, err := none }).1 = .ok none ∧
    ((DB.get { val := some ⟨3, [9, 8]⟩, err := none }).1 = .ok (some [9, 8]) ∧
      3 ∈ (DB.get { val := some ⟨3, [9, 8]⟩, err := none }).2) ∧
    ((DB.get { val := none, err := some ⟨7, [65, 0, 66]⟩ }).1 = .error [65] ∧
      7 ∈ (DB.get { val := none, err := some ⟨7, [65, 0, 66]⟩ }).2) := by
  refine ⟨(c4_get { val := none, err := none }).1.mpr ⟨rfl, rfl⟩,
    (c4_get _).2.1 ⟨3, [9, 8]⟩ rfl rfl,
    ⟨Eq.trans ((c4_get _).2.2.1 ⟨7, [65, 0, 66]⟩ rfl).1
      (congrArg Except.error (by decide)),
     ((c4_get _).2.2.1 ⟨7, [65, 0, 66]⟩ rfl).2⟩⟩

/-! ## Claim C5 -/

/-- C5: `WriteBatch::write` applies all buffered operations to the target
database as one unit on success (`Ok`), leaves the database entirely
unchanged on failure (`Err` carrying the translated engine message), and in
both outcomes returns the batch's buffered operation list unchanged, so the
same batch may be retried. -/
theorem c5_batch_write (b : List BatchOp) (e : Engine) (ferr : Option Buffer) :
    (WriteBatch.write b e ferr).2.2.1 = b ∧
    (ferr = none →
       (WriteBatch.write b e ferr).1 = .ok () ∧
       (WriteBatch.write b e ferr).2.1 = { e with data := applyOps b e.data }) ∧
    (∀ buf, ferr = some buf →
       (WriteBatch.write b e ferr).1 = .error (error_message (some buf)).1 ∧
       (WriteBatch.write b e ferr).2.1 = e) := by
  cases ferr <;> simp [WriteBatch.write, error_message]

/-- C5, witness: a one-put batch written to an empty database applies its
operation on success and leaves the database untouched on failure, with the
buffered list intact in both outcomes. -/
theorem c5_witness :
    (WriteBatch.write [BatchOp.putOp [1] [2]]
        { data := [], snaps := [], snapCtr := 0 } none).2.1 =
      { data := [([1], [2])], snaps := [], snapCtr := 0 } ∧
    (WriteBatch.write [BatchOp.putOp [1] [2]]
        { data := [], snaps := [], snapCtr := 0 } none).2.2.1 = [BatchOp.putOp [1] [2]] ∧
    (WriteBatch.write [BatchOp.putOp [1] [2]]
        { data := [], snaps := [], snapCtr := 0 } (some ⟨4, [70]⟩)).2.1 =
      { data := [], snaps := [], snapCtr := 0 } ∧
    (WriteBatch.write [BatchOp.putOp [1] [2]]
        { data := [], snaps := [], snapCtr := 0 } (some ⟨4, [70]⟩)).2.2.1 =
      [BatchOp.putOp [1] [2]] := by
  refine ⟨Eq.trans ((c5_batch_write _ _ none).2.1 rfl).2 (by decide),
    (c5_batch_write _ _ none).1,
    ((c5_batch_write _ _ (some ⟨4, [70]⟩)).2.2 ⟨4, [70]⟩ rfl).2,
    (c5_batch_write _ _ (some ⟨4, [70]⟩)).1⟩

/-! ## Claim C6 -/

/-- C6: for every engine state and all byte strings `k` and `v` — the empty
key and the empty value included — a successful `DB::put(k, v)` followed by
`DB::get(k)` on the engine's non-failing read path (no snapshot pinned)
returns `Ok (Some v)`. -/
theorem c6_put_get_roundtrip (e : Engine) (k v : Bytes) :
    (DB.put e k v none).1 = .ok () ∧
    (DB.getAt (DB.put e k v none).2.1 k).1 = .ok (some v) := by
  constructor
  · simp [DB.put]
  · simp [DB.put, DB.getAt, engineGet, DB.get, dbLookup, dbInsert]

/-! ## Claim C7 -/

/-- C7: `DBIterator::key` and `DBIterator::value` return `Some` of a copy of
the current entry's key respectively value when the iterator is valid, and
`None` when it is invalid; both are total functions, so no call faults. -/
theorem c7_key_value (s : IterState) :
    (DBIterator.valid s = true →
       ∃ entry, s.currentEntry = some entry ∧
         DBIterator.key s = some entry.1 ∧ DBIterator.value s = some entry.2) ∧
    (DBIterator.valid s = false →
       DBIterator.key s = none ∧ DBIterator.value s = none) := by
  constructor
  · intro h
    exact ⟨(iterKeyPrim s, iterValuePrim s), currentEntry_of_valid h,
      by simp [DBIterator.key, h], by simp [DBIterator.value, h]⟩
  · intro h
    constructor <;> simp [DBIterator.key, DBIterator.value, h]

/-- C7, witness: key and value of a valid single-entry iterator, and of the
same iterator made invalid. -/
theorem c7_witness :
    DBIterator.key { entries := [([1], [2])], pos := some 0 } = some [1] ∧
    DBIterator.value { entries := [([1], [2])], pos := some 0 } = some [2] ∧
    DBIterator.key { entries := [([1], [2])], pos := none } = none ∧
    DBIterator.value { entries := [([1], [2])], pos := none } = none := by
  obtain ⟨hv, -⟩ := c7_key_value ({ entries := [([1], [2])], pos := some 0 } : IterState)
  obtain ⟨-, hinv⟩ := c7_key_value ({ entries := [([1], [2])], pos := none } : IterState)
  obtain ⟨entry, he, hk, hval⟩ := hv (by decide)
  have h1 : entry = ([1], [2]) := Option.some.inj (he.symm.trans (by decide))
  subst h1
  exact ⟨hk, hval, (hinv (by decide)).1, (hinv (by decide)).2⟩

/-! ## Claim C8 -/

/-- C8: `DB::flush` is the same operation as `DB::compact_range(None, None)`
— for every engine compaction behaviour and every engine state the two
produce identical results, both issuing the single foreign compaction call
with both bounds marshalled to the null pointer with length 0; neither has an
error channel at this layer (both are total functions into engine states). -/
theorem c8_flush_compact (ec : CompactPrim) (e : Engine) :
    DB.flush ec e = DB.compact_range ec e none none ∧
    DB.flush ec e = ec e (none, 0) (none, 0) :=
  ⟨rfl, rfl⟩

/-! ## Claim C9 -/

/-- C9: `DB::open` never fails because the path bytes are not valid UTF-8 —
for every path free of null bytes the outcome is entirely the foreign open
call's outcome at the lossily converted path (so a non-UTF-8 path opens the
database at the substituted path, as the concrete conjunct `utf8Lossy [0xFF]
= utf8Rep ≠ [0xFF]` exhibits), the pre-call validation error occurs exactly
on a null byte, and the conversion introduces or removes no null bytes. -/
theorem c9_open_lossy (path : Bytes) (fopen : Bytes → ForeignOpenResult) :
    (0 ∉ path → DB.open path fopen = DB.openPost (fopen (utf8Lossy path))) ∧
    (0 ∈ path → DB.open path fopen = .error invalidPathMsg) ∧
    (0 ∈ utf8Lossy path ↔ 0 ∈ path) ∧
    (utf8Lossy [0xFF] = utf8Rep ∧ (utf8Rep : Bytes) ≠ [0xFF]) := by
  have hmem := utf8Lossy_zero_mem path
  refine ⟨?_, ?_, hmem, by decide, by decide⟩
  · intro h0
    have hnot : 0 ∉ utf8Lossy path := fun hc => h0 (hmem.mp hc)
    simp [DB.open, to_cstring, hnot]
  · intro h0
    simp [DB.open, to_cstring, hmem.mpr h0]

/-- C9, witness: opening at the non-UTF-8 path `[0xFF]` succeeds through the
foreign call (made at the substituted path), while a null byte anywhere in
the path triggers the validation error. -/
theorem c9_witness :
    DB.open [0xFF] (fun _ => { handle := some 4, err := none }) = .ok 4 ∧
    DB.open [0xFF, 0] (fun _ => { handle := some 4, err := none }) =
      .error invalidPathMsg := by
  refine ⟨Eq.trans ((c9_open_lossy [0xFF] _).1 (by decide)) rfl,
    (c9_open_lossy [0xFF, 0] _).2.1 (by decide)⟩

/-! ## Claim C10 -/

/-- C10: `ReadOptions::snapshot` applied to a live database takes a fresh
foreign snapshot at the moment of the call (appended to the engine's held
set, never previously held), storing the new pointer in the options;
yielding an already-held snapshot pointer, dropping the `ReadOptions`, and
the other engine-touching wrapper operations (`DB::put`, `DB::delete`,
`WriteBatch::write`) leave the engine's held-snapshot set untouched — nothing
in the wrapper ever releases a snapshot, so the set only grows while the
database is open. -/
theorem c10_snapshots (ro : ReadOptionsM) (e : Engine) :
    ((ReadOptions.snapshotOfDB ro e).2.snaps = e.snaps ++ [e.snapCtr] ∧
     (ReadOptions.snapshotOfDB ro e).1.snap = some e.snapCtr) ∧
    (e.snapBound →
       e.snapCtr ∉ e.snaps ∧ (ReadOptions.snapshotOfDB ro e).2.snapBound) ∧
    (∀ p, ReadOptions.snapshotOfRaw ro p e = ({ snap := some p }, e)) ∧
    ReadOptions.dropRO ro e = e ∧
    (∀ k v ferr,
       ((DB.put e k v ferr).2.1.snaps = e.snaps ∧
        (DB.put e k v ferr).2.1.snapCtr = e.snapCtr) ∧
       ((DB.delete e k ferr).2.1.snaps = e.snaps ∧
        (DB.delete e k ferr).2.1.snapCtr = e.snapCtr)) ∧
    (∀ b ferr,
       (WriteBatch.write b e ferr).2.1.snaps = e.snaps ∧
       (WriteBatch.write b e ferr).2.1.snapCtr = e.snapCtr) := by
  refine ⟨⟨?_, ?_⟩, ?_, fun p => rfl, rfl, ?_, ?_⟩
  · simp [ReadOptions.snapshotOfDB, DB.asSnapshotPtr, engineCreateSnapshot]
  · simp [ReadOptions.snapshotOfDB, DB.asSnapshotPtr, engineCreateSnapshot]
  · intro hb
    constructor
    · intro hc
      exact absurd (hb _ hc) (lt_irrefl _)
    · intro s hs
      simp only [ReadOptions.snapshotOfDB, DB.asSnapshotPtr, engineCreateSnapshot,
        List.mem_append, List.mem_singleton] at hs ⊢
      rcases hs with hs | hs
      · exact Nat.lt_succ_of_lt (hb s hs)
      · omega
  · intro k v ferr
    cases ferr <;> simp [DB.put, DB.delete, error_message]
  · intro b ferr
    cases ferr <;> simp [WriteBatch.write, error_message]

/-- C10, witness: taking a snapshot of a database holding snapshots 0 and 1
appends the fresh id 2 (not previously held), and dropping read options or
writing through the database leaves the held set `[0, 1]` unchanged. -/
theorem c10_witness :
    (ReadOptions.snapshotOfDB { snap := none }
        { data := [], snaps := [0, 1], snapCtr := 2 }).2.snaps = [0, 1, 2] ∧
    (2 : Nat) ∉ ([0, 1] : List Nat) ∧
    ReadOptions.dropRO { snap := some 0 } { data := [], snaps := [0, 1], snapCtr := 2 } =
      { data := [], snaps := [0, 1], snapCtr := 2 } ∧
    (DB.put { data := [], snaps := [0, 1], snapCtr := 2 } [1] [2] none).2.1.snaps =
      [0, 1] := by
  obtain ⟨h1, h2, -⟩ :=
    c10_snapshots { snap := none } { data := [], snaps := [0, 1], snapCtr := 2 }
  refine ⟨Eq.trans h1.1 (by decide), (h2 (by decide)).1,
    (c10_snapshots { snap := some 0 } { data := [], snaps := [0, 1], snapCtr := 2 }).2.2.2.1,
    ((c10_snapshots { snap := some 0 }
        { data := [], snaps := [0, 1], snapCtr := 2 }).2.2.2.2.1 [1] [2] none).1.1⟩

end BedrockLeveldb
